import Mathlib

/-!
Shallow embedding of the qassure audit framework (src/qassure/framework.py)
and proofs about its claim-evaluation / failure-accumulation engine.

Python machine model used throughout:
  * Python values under audit are modelled by the inductive `PyVal`
    (the absence-sentinel `None`, booleans, integers, strings, lists, and
    callables; a callable is modelled by the outcome of invoking it with the
    arguments a claim supplies: it either returns normally or raises an
    exception of some class).
  * Python exceptions are modelled by `ExnType`; `except E` clauses use
    `isinstance` matching, where every modelled concrete exception class is a
    subclass of `Exception`.  `BlockingDeficiencyError` is the framework's own
    fatal signal (framework.py line 37, a direct subclass of `Exception`).
  * Mutation of the `Auditor` (its owned report and flags) is explicit state
    passing; a raised exception is an `Except.error` that unwinds a statement
    sequence exactly as Python unwinding does, carrying the state already
    mutated before the raise.
  * The caller-supplied `audit()` hook is modelled as a list of claim steps,
    each one `self.claim(value, severity, name).method(...)` statement, run in
    order; the stack-introspection facility (traceback) is external to the
    engine and modelled by the optional frame / inferred-name data a step
    carries.
-/

namespace Qassure

/-- Severity of a deficiency, framework.py lines 18-34 (an IntEnum). -/
inductive Severity where
  | BLOCKER
  | CRITICAL
  | ERROR
  | WARNING
  | INFO
deriving DecidableEq, Repr

/-- The IntEnum numeric value of each severity; IntEnum comparison operators
compare these numbers. -/
def Severity.rank : Severity → Nat
  | Severity.BLOCKER => 50
  | Severity.CRITICAL => 40
  | Severity.ERROR => 30
  | Severity.WARNING => 20
  | Severity.INFO => 10

/-- The Python exception classes that appear in the embedding.
`blockingDeficiencyError` models `BlockingDeficiencyError` (framework.py
line 37); the others are host-language exception classes raised by built-in
operations or by audited callables. -/
inductive ExnType where
  | exception
  | blockingDeficiencyError
  | valueError
  | typeError
deriving DecidableEq, Repr

/-- `isinstance(e, t)` for exception instances: each modelled concrete class
is a direct subclass of `Exception` and classes are otherwise unrelated. -/
def ExnType.isInstanceOf (e t : ExnType) : Bool :=
  e == t || t == ExnType.exception

/-- Python display name of an exception class (used in default messages). -/
def ExnType.pyName : ExnType → String
  | ExnType.exception => "<class Exception>"
  | ExnType.blockingDeficiencyError => "<class BlockingDeficiencyError>"
  | ExnType.valueError => "<class ValueError>"
  | ExnType.typeError => "<class TypeError>"

/-- Python runtime types of the modelled values. -/
inductive PyType where
  | noneType
  | boolType
  | intType
  | strType
  | listType
  | callableType
deriving DecidableEq, Repr

/-- Python display name of a type (used in default messages). -/
def PyType.pyName : PyType → String
  | PyType.noneType => "<class NoneType>"
  | PyType.boolType => "<class bool>"
  | PyType.intType => "<class int>"
  | PyType.strType => "<class str>"
  | PyType.listType => "<class list>"
  | PyType.callableType => "<class callable>"

/-- A Python value under audit.  A callable carries the outcome of invoking
it with the arguments the claim supplies: `none` means it returns normally,
`some e` means it raises an exception of class `e`. -/
inductive PyVal where
  | vnone
  | vbool (b : Bool)
  | vint (n : Int)
  | vstr (s : String)
  | vlist (xs : List PyVal)
  | vcallable (raisesOn : Option ExnType)

/-- Python truthiness (`bool(value)`). -/
def PyVal.truthy : PyVal → Bool
  | PyVal.vnone => false
  | PyVal.vbool b => b
  | PyVal.vint n => !(n == 0)
  | PyVal.vstr s => !(s == "")
  | PyVal.vlist xs => !xs.isEmpty
  | PyVal.vcallable _ => true

/-- `value is None`. -/
def PyVal.isNone : PyVal → Bool
  | PyVal.vnone => true
  | _ => false

/-- `type(value)`. -/
def PyVal.typeOf : PyVal → PyType
  | PyVal.vnone => PyType.noneType
  | PyVal.vbool _ => PyType.boolType
  | PyVal.vint _ => PyType.intType
  | PyVal.vstr _ => PyType.strType
  | PyVal.vlist _ => PyType.listType
  | PyVal.vcallable _ => PyType.callableType

/-- `isinstance(value, t)`: the type matches exactly, except that `bool` is a
subclass of `int` in Python. -/
def isinstance (v : PyVal) (t : PyType) : Bool :=
  v.typeOf == t || (v.typeOf == PyType.boolType && t == PyType.intType)

/-- `callable(value)`. -/
def pyCallable : PyVal → Bool
  | PyVal.vcallable _ => true
  | _ => false

def pyIntOfBool (b : Bool) : Int := if b then 1 else 0

mutual
/-- Python `==` value equality on the modelled values (booleans compare equal
to the corresponding integers; callables are distinct objects). -/
def pyEq : PyVal → PyVal → Bool
  | PyVal.vnone, PyVal.vnone => true
  | PyVal.vbool b, PyVal.vbool c => b == c
  | PyVal.vbool b, PyVal.vint n => pyIntOfBool b == n
  | PyVal.vint n, PyVal.vbool b => n == pyIntOfBool b
  | PyVal.vint n, PyVal.vint m => n == m
  | PyVal.vstr s, PyVal.vstr u => s == u
  | PyVal.vlist xs, PyVal.vlist ys => pyEqList xs ys
  | _, _ => false

def pyEqList : List PyVal → List PyVal → Bool
  | [], [] => true
  | x :: xs, y :: ys => pyEq x y && pyEqList xs ys
  | _, _ => false
end

mutual
/-- `str(value)` as used by `"...".format(value)` in default messages. -/
def PyVal.pyStr : PyVal → String
  | PyVal.vnone => "None"
  | PyVal.vbool b => if b then "True" else "False"
  | PyVal.vint n => toString n
  | PyVal.vstr s => s
  | PyVal.vlist xs => "[" ++ pyStrList xs ++ "]"
  | PyVal.vcallable _ => "<callable>"

def pyStrList : List PyVal → String
  | [] => ""
  | [x] => PyVal.pyStr x
  | x :: rest => PyVal.pyStr x ++ ", " ++ pyStrList rest
end

/-- Whether the first character list occurs at the start of the second. -/
def charsStart : List Char → List Char → Bool
  | [], _ => true
  | _ :: _, [] => false
  | c :: cs, d :: ds => c == d && charsStart cs ds

/-- Whether the first character list occurs contiguously in the second. -/
def charsInfix (sub : List Char) : List Char → Bool
  | [] => sub.isEmpty
  | d :: ds => charsStart sub (d :: ds) || charsInfix sub ds

/-- `x in value` membership testing: lists test elementwise equality, strings
test substring containment (and require a string operand); other values do
not support membership testing and raise `TypeError` (`none`). -/
def pyContains : PyVal → PyVal → Option Bool
  | PyVal.vlist xs, x => Option.some (xs.any (fun y => pyEq y x))
  | PyVal.vstr s, PyVal.vstr sub => Option.some (charsInfix sub.data s.data)
  | PyVal.vstr _, _ => Option.none
  | _, _ => Option.none

/-- `self.value(*args, **kwargs)`: invoking a callable yields its modelled
outcome; invoking a non-callable raises `TypeError`. -/
def callValue : PyVal → Except ExnType Unit
  | PyVal.vcallable Option.none => Except.ok ()
  | PyVal.vcallable (Option.some e) => Except.error e
  | _ => Except.error ExnType.typeError

/-- Python's `msg or default`: `None` and the empty string are falsy. -/
def pyOr (msg : Option String) (d : String) : String :=
  match msg with
  | Option.some m => if m == "" then d else m
  | Option.none => d

/-- A `traceback.FrameSummary` as consumed by `Auditor.add_report_item`. -/
structure FrameSummary where
  filename : String
  lineno : Nat
  name : String
  line : String
deriving DecidableEq, Repr

/-- The audit report, framework.py lines 42-70: wraps a list of
`(severity, message, source)` tuples. -/
structure AuditReport where
  report_items : List (Severity × String × String)
deriving Repr

/-- `AuditReport.__init__`: starts empty. -/
def AuditReport.init : AuditReport := AuditReport.mk []

/-- `AuditReport.__len__`. -/
def AuditReport.len (r : AuditReport) : Nat := r.report_items.length

/-- `AuditReport.__getitem__` (0-based; out-of-range is `none`, modelling the
raised `IndexError`). -/
def AuditReport.getitem (r : AuditReport) (k : Nat) :
    Option (Severity × String × String) :=
  r.report_items.get? k

/-- `AuditReport.__iter__`: iteration yields the underlying list in order. -/
def AuditReport.iter (r : AuditReport) : List (Severity × String × String) :=
  r.report_items

/-- `AuditReport.append` (framework.py line 60): adds one tuple at the end. -/
def AuditReport.append (r : AuditReport) (severity : Severity)
    (message source : String) : AuditReport :=
  AuditReport.mk (r.report_items ++ [(severity, message, source)])

/-- The `Auditor`'s mutable state, framework.py lines 106-110: the owned
report, the run-once flag `qa_run_flag`, and the `is_blocked` flag. -/
structure Auditor where
  report : AuditReport
  qa_run_flag : Bool
  is_blocked : Bool
deriving Repr

/-- `Auditor.__init__` (framework.py lines 106-110). -/
def Auditor.init : Auditor := Auditor.mk AuditReport.init false false

/-- The provenance string `add_report_item` builds from its optional frame
(framework.py lines 146-153). -/
def frameSource : Option FrameSummary → String
  | Option.none => "Unknown"
  | Option.some f =>
      "File \"" ++ f.filename ++ "\", line " ++ toString f.lineno ++ ", in "
        ++ f.name ++ ": " ++ f.line

/-- `Auditor.add_report_item` (framework.py lines 134-154). -/
def Auditor.add_report_item (self : Auditor) (severity : Severity)
    (message : String) (last_frame : Option FrameSummary) : Auditor :=
  { self with report := self.report.append severity message (frameSource last_frame) }

/-- The loop body of `Auditor.passed` (framework.py lines 129-132): scan the
report items and return `False` at the first item whose severity exceeds
`max_level`. -/
def passedLoop (items : List (Severity × String × String))
    (max_level : Severity) : Bool :=
  match items with
  | [] => true
  | m :: rest =>
      if max_level.rank < m.1.rank then false else passedLoop rest max_level

/-- `Auditor.passed` (framework.py lines 121-132).  Note: the source body
iterates `self.report` directly and does not call `run_audit`. -/
def Auditor.passed (self : Auditor) (max_level : Severity) : Bool :=
  passedLoop self.report.report_items max_level

/-- `ClaimInspector`'s fields (framework.py lines 236-241); the `agent`
back-reference is replaced by explicit state passing of the `Auditor`. -/
structure ClaimInspector where
  error_level : Severity
  value : PyVal
  object_name : String

/-- `ClaimInspector.__init__` (framework.py lines 236-241): a falsy
`object_name` (absent or empty) falls back to the generic placeholder. -/
def ClaimInspector.init (error_level : Severity) (value : PyVal)
    (object_name : Option String) : ClaimInspector :=
  ClaimInspector.mk error_level value
    (match object_name with
     | Option.some n => if n == "" then "[provided value]" else n
     | Option.none => "[provided value]")

/-- `Auditor.claim` (framework.py lines 156-178).  The stack walk /
`_parse_frame_line_for_arg` name recovery is an external facility; its result
(the extracted first-argument text, if any) is the `inferredName` input.  A
truthy extracted text gives `[text]`, otherwise the generic placeholder. -/
def Auditor.claim (self : Auditor) (value : PyVal) (severity : Severity)
    (object_name : Option String) (inferredName : Option String) :
    ClaimInspector :=
  match object_name with
  | Option.some n => ClaimInspector.init severity value (Option.some n)
  | Option.none =>
      ClaimInspector.init severity value
        (Option.some
          (match inferredName with
           | Option.some t => if t == "" then "[provided value]" else "[" ++ t ++ "]"
           | Option.none => "[provided value]"))

/-- `ClaimInspector._report_deficiency` (framework.py lines 243-261): resolve
the caller frame (external, passed in), append one report item through the
owning auditor, then raise the fatal signal when the bound severity is
`BLOCKER`. -/
def ClaimInspector.report_deficiency (self : ClaimInspector) (msg : String)
    (frame : Option FrameSummary) (a : Auditor) :
    Auditor × Except ExnType Unit :=
  let a2 := a.add_report_item self.error_level msg frame
  if self.error_level = Severity.BLOCKER then
    (a2, Except.error ExnType.blockingDeficiencyError)
  else (a2, Except.ok ())

/-- The claim vocabulary, one constructor per `ClaimInspector` predicate or
skip-combinator, with the argument each one takes. -/
inductive InspMethod where
  | is_truthy
  | is_none
  | is_not_none
  | is_type (cls : PyType)
  | is_callable
  | is_equal_to (value : PyVal)
  | contains (value : PyVal)
  | raises (exception_type : ExnType)
  | if_not_none
  | if_is_type (cls : PyType)

/-- The default message template of each predicate (the `msg or "..."` right
hand sides in framework.py). -/
def defaultMsg (m : InspMethod) (name : String) : String :=
  match m with
  | InspMethod.is_truthy => name ++ " is not truthy, should be"
  | InspMethod.is_none => name ++ " is not none, should be"
  | InspMethod.is_not_none => name ++ " is None, should not be"
  | InspMethod.is_type t => name ++ " is not an instance of " ++ t.pyName
  | InspMethod.is_callable => name ++ " is not callable"
  | InspMethod.is_equal_to x => name ++ " is not equal to " ++ x.pyStr
  | InspMethod.contains x => name ++ " does not contain value " ++ x.pyStr
  | InspMethod.raises t => name ++ " does not raise exception " ++ t.pyName
  | InspMethod.if_not_none => ""
  | InspMethod.if_is_type _ => ""

/-- Either a live `ClaimInspector` or the `NoOpInspector` sentinel, the two
receivers a chained claim call can have. -/
inductive Inspector where
  | insp (c : ClaimInspector)
  | noop

/-- `return self` after a possible `_report_deficiency` call: the common exit
of every violation-recording predicate (the deficiency's exception, if any,
keeps unwinding). -/
def checkFailed (self : ClaimInspector) (m : String)
    (frame : Option FrameSummary) (a : Auditor) :
    Auditor × Except ExnType Inspector :=
  match self.report_deficiency m frame a with
  | (a2, Except.ok _) => (a2, Except.ok (Inspector.insp self))
  | (a2, Except.error e) => (a2, Except.error e)

/-- `ClaimInspector.is_truthy` (framework.py lines 263-272). -/
def ClaimInspector.is_truthy (self : ClaimInspector) (msg : Option String)
    (frame : Option FrameSummary) (a : Auditor) :
    Auditor × Except ExnType Inspector :=
  if self.value.truthy then (a, Except.ok (Inspector.insp self))
  else checkFailed self (pyOr msg (defaultMsg InspMethod.is_truthy self.object_name)) frame a

/-- `ClaimInspector.is_none` (framework.py lines 274-283). -/
def ClaimInspector.is_none (self : ClaimInspector) (msg : Option String)
    (frame : Option FrameSummary) (a : Auditor) :
    Auditor × Except ExnType Inspector :=
  if self.value.isNone then (a, Except.ok (Inspector.insp self))
  else checkFailed self (pyOr msg (defaultMsg InspMethod.is_none self.object_name)) frame a

/-- `ClaimInspector.is_not_none` (framework.py lines 285-294). -/
def ClaimInspector.is_not_none (self : ClaimInspector) (msg : Option String)
    (frame : Option FrameSummary) (a : Auditor) :
    Auditor × Except ExnType Inspector :=
  if self.value.isNone then
    checkFailed self (pyOr msg (defaultMsg InspMethod.is_not_none self.object_name)) frame a
  else (a, Except.ok (Inspector.insp self))

/-- `ClaimInspector.is_type` (framework.py lines 296-307). -/
def ClaimInspector.is_type (self : ClaimInspector) (cls : PyType)
    (msg : Option String) (frame : Option FrameSummary) (a : Auditor) :
    Auditor × Except ExnType Inspector :=
  if isinstance self.value cls then (a, Except.ok (Inspector.insp self))
  else checkFailed self (pyOr msg (defaultMsg (InspMethod.is_type cls) self.object_name)) frame a

/-- `ClaimInspector.is_callable` (framework.py lines 309-318). -/
def ClaimInspector.is_callable (self : ClaimInspector) (msg : Option String)
    (frame : Option FrameSummary) (a : Auditor) :
    Auditor × Except ExnType Inspector :=
  if pyCallable self.value then (a, Except.ok (Inspector.insp self))
  else checkFailed self (pyOr msg (defaultMsg InspMethod.is_callable self.object_name)) frame a

/-- `ClaimInspector.is_equal_to` (framework.py lines 320-331). -/
def ClaimInspector.is_equal_to (self : ClaimInspector) (value : PyVal)
    (msg : Option String) (frame : Option FrameSummary) (a : Auditor) :
    Auditor × Except ExnType Inspector :=
  if pyEq self.value value then (a, Except.ok (Inspector.insp self))
  else checkFailed self (pyOr msg (defaultMsg (InspMethod.is_equal_to value) self.object_name)) frame a

/-- `ClaimInspector.if_not_none` (framework.py lines 333-337): no deficiency
either way; a `None` value short-circuits to the `NoOpInspector`. -/
def ClaimInspector.if_not_none (self : ClaimInspector) (a : Auditor) :
    Auditor × Except ExnType Inspector :=
  if self.value.isNone then (a, Except.ok Inspector.noop)
  else (a, Except.ok (Inspector.insp self))

/-- `ClaimInspector.if_is_type` (framework.py lines 339-347). -/
def ClaimInspector.if_is_type (self : ClaimInspector) (cls : PyType)
    (a : Auditor) : Auditor × Except ExnType Inspector :=
  if isinstance self.value cls then (a, Except.ok (Inspector.insp self))
  else (a, Except.ok Inspector.noop)

/-- `ClaimInspector.contains` (framework.py lines 349-360): `value not in
self.value` records a deficiency; a value without membership testing raises
`TypeError` (a host-level usage error, not a deficiency). -/
def ClaimInspector.contains (self : ClaimInspector) (value : PyVal)
    (msg : Option String) (frame : Option FrameSummary) (a : Auditor) :
    Auditor × Except ExnType Inspector :=
  match pyContains self.value value with
  | Option.none => (a, Except.error ExnType.typeError)
  | Option.some true => (a, Except.ok (Inspector.insp self))
  | Option.some false =>
      checkFailed self (pyOr msg (defaultMsg (InspMethod.contains value) self.object_name)) frame a

/-- `ClaimInspector.raises` (framework.py lines 362-376): invoke the value
inside `try`; when it returns normally, report a deficiency (still inside the
`try`, so the fatal signal of a `BLOCKER` claim is itself subject to the
`except exception_type` clause); an exception matching `exception_type` is
swallowed, any other exception propagates. -/
def ClaimInspector.raises (self : ClaimInspector) (exception_type : ExnType)
    (msg : Option String) (frame : Option FrameSummary) (a : Auditor) :
    Auditor × Except ExnType Inspector :=
  let m := pyOr msg (defaultMsg (InspMethod.raises exception_type) self.object_name)
  match callValue self.value with
  | Except.ok _ =>
      match self.report_deficiency m frame a with
      | (a2, Except.ok _) => (a2, Except.ok (Inspector.insp self))
      | (a2, Except.error e) =>
          if e.isInstanceOf exception_type then (a2, Except.ok (Inspector.insp self))
          else (a2, Except.error e)
  | Except.error e =>
      if e.isInstanceOf exception_type then (a, Except.ok (Inspector.insp self))
      else (a, Except.error e)

/-- Dispatch one claim-vocabulary call on a live `ClaimInspector`. -/
def ClaimInspector.applyMethod (self : ClaimInspector) (m : InspMethod)
    (msg : Option String) (frame : Option FrameSummary) (a : Auditor) :
    Auditor × Except ExnType Inspector :=
  match m with
  | InspMethod.is_truthy => self.is_truthy msg frame a
  | InspMethod.is_none => self.is_none msg frame a
  | InspMethod.is_not_none => self.is_not_none msg frame a
  | InspMethod.is_type t => self.is_type t msg frame a
  | InspMethod.is_callable => self.is_callable msg frame a
  | InspMethod.is_equal_to v => self.is_equal_to v msg frame a
  | InspMethod.contains v => self.contains v msg frame a
  | InspMethod.raises t => self.raises t msg frame a
  | InspMethod.if_not_none => self.if_not_none a
  | InspMethod.if_is_type t => self.if_is_type t a

/-- Dispatch one claim-vocabulary call on either receiver.  On the
`NoOpInspector` (framework.py lines 379-390) the attribute lookup returns the
sentinel itself and calling it returns the sentinel again: no state change,
no exception. -/
def Inspector.applyMethod (i : Inspector) (m : InspMethod)
    (msg : Option String) (frame : Option FrameSummary) (a : Auditor) :
    Auditor × Except ExnType Inspector :=
  match i with
  | Inspector.noop => (a, Except.ok Inspector.noop)
  | Inspector.insp c => c.applyMethod m msg frame a

/-- One call of a fluent chain: the method, its optional explicit message,
and the caller frame the external traceback facility would report. -/
structure ChainCall where
  method : InspMethod
  msg : Option String
  frame : Option FrameSummary

/-- Run a fluent chain of claim calls left to right; an exception raised by a
call unwinds past the rest of the chain. -/
def Inspector.runChain (i : Inspector) (calls : List ChainCall) (a : Auditor) :
    Auditor × Except ExnType Inspector :=
  match calls with
  | [] => (a, Except.ok i)
  | c :: rest =>
      match i.applyMethod c.method c.msg c.frame a with
      | (a2, Except.ok i2) => i2.runChain rest a2
      | (a2, Except.error e) => (a2, Except.error e)

/-- One statement of a caller-supplied `audit()` body:
`self.claim(value, severity, object_name).method(...)`. -/
structure Step where
  value : PyVal
  severity : Severity
  object_name : Option String
  inferredName : Option String
  call : ChainCall

/-- Evaluate one claim statement: obtain the inspector from `Auditor.claim`
and apply the claim call. -/
def runStep (s : Step) (a : Auditor) : Auditor × Except ExnType Inspector :=
  Inspector.runChain
    (Inspector.insp (a.claim s.value s.severity s.object_name s.inferredName))
    [s.call] a

/-- Run the statements of an `audit()` body in order; an exception unwinds
past the remaining statements. -/
def runSteps (body : List Step) (a : Auditor) : Auditor × Except ExnType Unit :=
  match body with
  | [] => (a, Except.ok ())
  | s :: rest =>
      match runStep s a with
      | (a2, Except.ok _) => runSteps rest a2
      | (a2, Except.error e) => (a2, Except.error e)

/-- `Auditor.run_audit` (framework.py lines 205-215), translated exactly:
when `qa_run_flag` is unset, invoke the `audit()` body and catch (only)
`BlockingDeficiencyError`, setting `is_blocked`.  The source never assigns
`qa_run_flag = True`. -/
def Auditor.run_audit (self : Auditor) (body : List Step) :
    Auditor × Except ExnType Unit :=
  if self.qa_run_flag then (self, Except.ok ())
  else
    match runSteps body self with
    | (a2, Except.ok _) => (a2, Except.ok ())
    | (a2, Except.error e) =>
        if e.isInstanceOf ExnType.blockingDeficiencyError then
          ({ a2 with is_blocked := true }, Except.ok ())
        else (a2, Except.error e)

/-- `Auditor.get_report` (framework.py lines 112-119): run the audit, then
return the report (an exception from the run propagates). -/
def Auditor.get_report (self : Auditor) (body : List Step) :
    Auditor × Except ExnType AuditReport :=
  match self.run_audit body with
  | (a2, Except.ok _) => (a2, Except.ok a2.report)
  | (a2, Except.error e) => (a2, Except.error e)

/-- `NoOpInspector` (framework.py lines 379-390). -/
inductive NoOpInspector where
  | mk
deriving DecidableEq

/-- `NoOpInspector.__call__` (framework.py line 389): invoking the sentinel
with any positional and keyword arguments returns the sentinel and never
raises. -/
def NoOpInspector.call (self : NoOpInspector) (args : List PyVal)
    (kwargs : List (String × PyVal)) : NoOpInspector :=
  let _ := args
  let _ := kwargs
  self

/-- The attribute names found on every CPython 3 object (inherited from
`object`, plus the instance/class bookkeeping attributes).  Normal attribute
lookup finds these, so access to them never reaches `__getattr__`; the exact
set varies slightly across CPython versions, which moves names between the
normal-lookup categories but is modelled here by the standard set. -/
def objectAttrNames : List String :=
  ["__class__", "__delattr__", "__dict__", "__dir__", "__doc__", "__eq__",
   "__format__", "__ge__", "__getattribute__", "__gt__", "__hash__",
   "__init_subclass__", "__le__", "__lt__", "__module__", "__ne__",
   "__new__", "__reduce__", "__reduce_ex__", "__repr__", "__setattr__",
   "__sizeof__", "__str__", "__subclasshook__", "__weakref__"]

/-- Whether normal attribute lookup succeeds for `item` on a `NoOpInspector`
instance: the class's own methods (framework.py lines 383-390) or an
attribute inherited from `object`.  Python invokes `__getattr__` only when
this fails. -/
def noopNormalLookup (item : String) : Bool :=
  item == "__init__" || item == "__getattr__" || item == "__call__" ||
    objectAttrNames.contains item

/-- What attribute access on a `NoOpInspector` instance yields: the sentinel
itself (when normal lookup fails and `__getattr__`, framework.py line 386,
answers), a bound method of one of the three class-defined methods, or a
host-runtime object for an attribute inherited from `object`. -/
inductive NoOpAttrVal where
  | sentinelSelf (n : NoOpInspector)
  | boundInit (n : NoOpInspector)
  | boundGetattr (n : NoOpInspector)
  | boundCall (n : NoOpInspector)
  | objectAttr (item : String)
deriving DecidableEq

/-- Python attribute access on a `NoOpInspector`: normal lookup first (the
class-defined methods `__init__`/`__getattr__`/`__call__` and the attributes
inherited from `object` yield bound methods / host objects); only when that
fails is `__getattr__` invoked, returning the sentinel itself.  Access never
raises. -/
def NoOpInspector.getattr (self : NoOpInspector) (item : String) : NoOpAttrVal :=
  if item == "__init__" then NoOpAttrVal.boundInit self
  else if item == "__getattr__" then NoOpAttrVal.boundGetattr self
  else if item == "__call__" then NoOpAttrVal.boundCall self
  else if objectAttrNames.contains item then NoOpAttrVal.objectAttr item
  else NoOpAttrVal.sentinelSelf self

/-- Outcome of invoking an accessed attribute with some arguments. -/
inductive NoOpCallOutcome where
  | sentinel (n : NoOpInspector)
  | returnedNone
  | hostDefined (item : String)
  | raised (e : ExnType)
deriving DecidableEq

/-- Invoking an accessed attribute.  The sentinel's `__call__` returns the
sentinel for any arguments; the bound class methods follow their Python
signatures: bound `__getattr__` takes exactly one positional argument and
returns the sentinel, bound `__init__` takes no arguments and returns
Python `None`, and a wrong arity raises `TypeError`; invoking an attribute
inherited from `object` is host-runtime behavior outside this engine,
reported as `hostDefined`. -/
def NoOpAttrVal.invoke (v : NoOpAttrVal) (args : List PyVal)
    (kwargs : List (String × PyVal)) : NoOpCallOutcome :=
  match v with
  | NoOpAttrVal.sentinelSelf n => NoOpCallOutcome.sentinel (n.call args kwargs)
  | NoOpAttrVal.boundCall n => NoOpCallOutcome.sentinel (n.call args kwargs)
  | NoOpAttrVal.boundGetattr n =>
      match args, kwargs with
      | [_], [] => NoOpCallOutcome.sentinel n
      | _, _ => NoOpCallOutcome.raised ExnType.typeError
  | NoOpAttrVal.boundInit _ =>
      match args, kwargs with
      | [], [] => NoOpCallOutcome.returnedNone
      | _, _ => NoOpCallOutcome.raised ExnType.typeError
  | NoOpAttrVal.objectAttr item => NoOpCallOutcome.hostDefined item

/-- One link of an arbitrary dynamic method chain: an attribute name (any
string, spelled correctly or not) and the call arguments. -/
structure DynCall where
  attr : String
  args : List PyVal
  kwargs : List (String × PyVal)

/-- Run an arbitrary attribute-access-and-call chain on the `NoOpInspector`,
threading an auditor alongside to observe (non-)effects on its report.  The
chain continues while each link yields the sentinel; a link whose outcome is
not the sentinel (a raised `TypeError`, the `None` returned by `__init__()`,
or a host-defined object) ends the modelled chain there, since its
continuation is behavior of host objects outside this engine. -/
def NoOpInspector.runDynChain (self : NoOpInspector) (calls : List DynCall)
    (a : Auditor) : Auditor × NoOpCallOutcome :=
  match calls with
  | [] => (a, NoOpCallOutcome.sentinel self)
  | c :: rest =>
      match (self.getattr c.attr).invoke c.args c.kwargs with
      | NoOpCallOutcome.sentinel n => n.runDynChain rest a
      | outcome => (a, outcome)

/-! Classification of one claim call, read off the source's condition for the
`_report_deficiency` path of each predicate. -/

/-- Whether the claim call records a deficiency ("the claim fails"): the
predicate's violation condition from the source.  A `raises` check records
exactly when invoking the value returns normally (framework.py line 372-373);
the skip-combinators never record. -/
def methodFails (m : InspMethod) (v : PyVal) : Bool :=
  match m with
  | InspMethod.is_truthy => !v.truthy
  | InspMethod.is_none => !v.isNone
  | InspMethod.is_not_none => v.isNone
  | InspMethod.is_type t => !(isinstance v t)
  | InspMethod.is_callable => !(pyCallable v)
  | InspMethod.is_equal_to x => !(pyEq v x)
  | InspMethod.contains x =>
      match pyContains v x with
      | Option.some false => true
      | _ => false
  | InspMethod.raises _ =>
      match callValue v with
      | Except.ok _ => true
      | Except.error _ => false
  | InspMethod.if_not_none => false
  | InspMethod.if_is_type _ => false

/-- Whether the claim call raises an uncaught host-level exception (no
deficiency recorded): membership testing on a value without it, or a `raises`
check whose invocation raises an exception not matching the expected class
(including the `TypeError` from invoking a non-callable, which the `except`
clause may or may not match). -/
def methodHostErr (m : InspMethod) (v : PyVal) : Bool :=
  match m with
  | InspMethod.contains x =>
      match pyContains v x with
      | Option.none => true
      | _ => false
  | InspMethod.raises t =>
      match callValue v with
      | Except.error e => !(e.isInstanceOf t)
      | _ => false
  | _ => false

/-- Whether the claim call's own `except` clause would catch the fatal
signal: only a `raises(E)` check with `BlockingDeficiencyError` matching `E`
(its `_report_deficiency` call sits inside the `try`). -/
def methodSwallowsBlock (m : InspMethod) : Bool :=
  match m with
  | InspMethod.raises t => ExnType.blockingDeficiencyError.isInstanceOf t
  | _ => false

/-- The `ClaimInspector` a step's `self.claim(...)` call produces
(`Auditor.claim` reads nothing from the auditor). -/
def stepInspector (s : Step) : ClaimInspector :=
  Auditor.init.claim s.value s.severity s.object_name s.inferredName

/-- Whether evaluating the step records a deficiency. -/
def stepFails (s : Step) : Bool := methodFails s.call.method s.value

/-- Whether evaluating the step raises an uncaught host-level exception. -/
def stepHostErr (s : Step) : Bool := methodHostErr s.call.method s.value

/-- The message the step's deficiency (if any) carries. -/
def stepMsg (s : Step) : String :=
  pyOr s.call.msg (defaultMsg s.call.method (stepInspector s).object_name)

/-- The report item the step appends when it fails. -/
def stepRecord (s : Step) : Severity × String × String :=
  (s.severity, stepMsg s, frameSource s.call.frame)

/-! Characterization lemmas for one claim call. -/

theorem checkFailed_not_blocker (c : ClaimInspector) (m : String)
    (fr : Option FrameSummary) (a : Auditor)
    (h : c.error_level ≠ Severity.BLOCKER) :
    checkFailed c m fr a =
      (a.add_report_item c.error_level m fr, Except.ok (Inspector.insp c)) := by
  unfold checkFailed ClaimInspector.report_deficiency
  simp [h]

theorem checkFailed_blocker (c : ClaimInspector) (m : String)
    (fr : Option FrameSummary) (a : Auditor)
    (h : c.error_level = Severity.BLOCKER) :
    checkFailed c m fr a =
      (a.add_report_item c.error_level m fr,
       Except.error ExnType.blockingDeficiencyError) := by
  unfold checkFailed ClaimInspector.report_deficiency
  simp [h]

/-- A failing claim call at a non-`BLOCKER` severity appends exactly one
report item and returns the inspector. -/
theorem applyMethod_fail (c : ClaimInspector) (m : InspMethod)
    (msg : Option String) (fr : Option FrameSummary) (a : Auditor)
    (hfail : methodFails m c.value = true)
    (hnb : c.error_level ≠ Severity.BLOCKER) :
    c.applyMethod m msg fr a =
      (a.add_report_item c.error_level (pyOr msg (defaultMsg m c.object_name)) fr,
       Except.ok (Inspector.insp c)) := by
  cases m with
  | is_truthy =>
      simp only [methodFails, Bool.not_eq_true'] at hfail
      simp [ClaimInspector.applyMethod, ClaimInspector.is_truthy, hfail,
            checkFailed_not_blocker c _ fr a hnb]
  | is_none =>
      simp only [methodFails, Bool.not_eq_true'] at hfail
      simp [ClaimInspector.applyMethod, ClaimInspector.is_none, hfail,
            checkFailed_not_blocker c _ fr a hnb]
  | is_not_none =>
      simp only [methodFails] at hfail
      simp [ClaimInspector.applyMethod, ClaimInspector.is_not_none, hfail,
            checkFailed_not_blocker c _ fr a hnb]
  | is_type t =>
      simp only [methodFails, Bool.not_eq_true'] at hfail
      simp [ClaimInspector.applyMethod, ClaimInspector.is_type, hfail,
            checkFailed_not_blocker c _ fr a hnb]
  | is_callable =>
      simp only [methodFails, Bool.not_eq_true'] at hfail
      simp [ClaimInspector.applyMethod, ClaimInspector.is_callable, hfail,
            checkFailed_not_blocker c _ fr a hnb]
  | is_equal_to x =>
      simp only [methodFails, Bool.not_eq_true'] at hfail
      simp [ClaimInspector.applyMethod, ClaimInspector.is_equal_to, hfail,
            checkFailed_not_blocker c _ fr a hnb]
  | contains x =>
      simp only [methodFails] at hfail
      rcases hc : pyContains c.value x with _ | b
      · rw [hc] at hfail; simp at hfail
      · cases b
        · simp [ClaimInspector.applyMethod, ClaimInspector.contains, hc,
                checkFailed_not_blocker c _ fr a hnb]
        · rw [hc] at hfail; simp at hfail
  | raises t =>
      simp only [methodFails] at hfail
      rcases hc : callValue c.value with e | u
      · rw [hc] at hfail; simp at hfail
      · simp [ClaimInspector.applyMethod, ClaimInspector.raises, hc,
              ClaimInspector.report_deficiency, hnb]
  | if_not_none => simp [methodFails] at hfail
  | if_is_type t => simp [methodFails] at hfail

/-- A failing claim call at `BLOCKER` severity, other than a `raises` check
that catches the fatal signal itself, appends exactly one report item and
raises the fatal signal. -/
theorem applyMethod_fail_blocker (c : ClaimInspector) (m : InspMethod)
    (msg : Option String) (fr : Option FrameSummary) (a : Auditor)
    (hfail : methodFails m c.value = true)
    (hb : c.error_level = Severity.BLOCKER)
    (hnsw : methodSwallowsBlock m = false) :
    c.applyMethod m msg fr a =
      (a.add_report_item c.error_level (pyOr msg (defaultMsg m c.object_name)) fr,
       Except.error ExnType.blockingDeficiencyError) := by
  cases m with
  | is_truthy =>
      simp only [methodFails, Bool.not_eq_true'] at hfail
      simp [ClaimInspector.applyMethod, ClaimInspector.is_truthy, hfail,
            checkFailed_blocker c _ fr a hb]
  | is_none =>
      simp only [methodFails, Bool.not_eq_true'] at hfail
      simp [ClaimInspector.applyMethod, ClaimInspector.is_none, hfail,
            checkFailed_blocker c _ fr a hb]
  | is_not_none =>
      simp only [methodFails] at hfail
      simp [ClaimInspector.applyMethod, ClaimInspector.is_not_none, hfail,
            checkFailed_blocker c _ fr a hb]
  | is_type t =>
      simp only [methodFails, Bool.not_eq_true'] at hfail
      simp [ClaimInspector.applyMethod, ClaimInspector.is_type, hfail,
            checkFailed_blocker c _ fr a hb]
  | is_callable =>
      simp only [methodFails, Bool.not_eq_true'] at hfail
      simp [ClaimInspector.applyMethod, ClaimInspector.is_callable, hfail,
            checkFailed_blocker c _ fr a hb]
  | is_equal_to x =>
      simp only [methodFails, Bool.not_eq_true'] at hfail
      simp [ClaimInspector.applyMethod, ClaimInspector.is_equal_to, hfail,
            checkFailed_blocker c _ fr a hb]
  | contains x =>
      simp only [methodFails] at hfail
      rcases hc : pyContains c.value x with _ | b
      · rw [hc] at hfail; simp at hfail
      · cases b
        · simp [ClaimInspector.applyMethod, ClaimInspector.contains, hc,
                checkFailed_blocker c _ fr a hb]
        · rw [hc] at hfail; simp at hfail
  | raises t =>
      simp only [methodFails] at hfail
      simp only [methodSwallowsBlock] at hnsw
      rcases hc : callValue c.value with e | u
      · rw [hc] at hfail; simp at hfail
      · simp [ClaimInspector.applyMethod, ClaimInspector.raises, hc,
              ClaimInspector.report_deficiency, hb, hnsw]
  | if_not_none => simp [methodFails] at hfail
  | if_is_type t => simp [methodFails] at hfail

/-- A claim call that neither fails nor raises a host-level exception leaves
the auditor untouched and returns some inspector. -/
theorem applyMethod_pass (c : ClaimInspector) (m : InspMethod)
    (msg : Option String) (fr : Option FrameSummary) (a : Auditor)
    (hfail : methodFails m c.value = false)
    (herr : methodHostErr m c.value = false) :
    ∃ i, c.applyMethod m msg fr a = (a, Except.ok i) := by
  cases m with
  | is_truthy =>
      simp only [methodFails, Bool.not_eq_false'] at hfail
      exact ⟨Inspector.insp c,
        by simp [ClaimInspector.applyMethod, ClaimInspector.is_truthy, hfail]⟩
  | is_none =>
      simp only [methodFails, Bool.not_eq_false'] at hfail
      exact ⟨Inspector.insp c,
        by simp [ClaimInspector.applyMethod, ClaimInspector.is_none, hfail]⟩
  | is_not_none =>
      simp only [methodFails] at hfail
      exact ⟨Inspector.insp c,
        by simp [ClaimInspector.applyMethod, ClaimInspector.is_not_none, hfail]⟩
  | is_type t =>
      simp only [methodFails, Bool.not_eq_false'] at hfail
      exact ⟨Inspector.insp c,
        by simp [ClaimInspector.applyMethod, ClaimInspector.is_type, hfail]⟩
  | is_callable =>
      simp only [methodFails, Bool.not_eq_false'] at hfail
      exact ⟨Inspector.insp c,
        by simp [ClaimInspector.applyMethod, ClaimInspector.is_callable, hfail]⟩
  | is_equal_to x =>
      simp only [methodFails, Bool.not_eq_false'] at hfail
      exact ⟨Inspector.insp c,
        by simp [ClaimInspector.applyMethod, ClaimInspector.is_equal_to, hfail]⟩
  | contains x =>
      rcases hc : pyContains c.value x with _ | b
      · simp only [methodHostErr] at herr; rw [hc] at herr; simp at herr
      · cases b
        · simp only [methodFails] at hfail; rw [hc] at hfail; simp at hfail
        · exact ⟨Inspector.insp c,
            by simp [ClaimInspector.applyMethod, ClaimInspector.contains, hc]⟩
  | raises t =>
      rcases hc : callValue c.value with e | u
      · have hm : e.isInstanceOf t = true := by
          simp only [methodHostErr] at herr; rw [hc] at herr
          simpa using herr
        exact ⟨Inspector.insp c,
          by simp [ClaimInspector.applyMethod, ClaimInspector.raises, hc, hm]⟩
      · simp only [methodFails] at hfail; rw [hc] at hfail; simp at hfail
  | if_not_none =>
      by_cases hv : c.value.isNone = true
      · exact ⟨Inspector.noop,
          by simp [ClaimInspector.applyMethod, ClaimInspector.if_not_none, hv]⟩
      · exact ⟨Inspector.insp c,
          by simp [ClaimInspector.applyMethod, ClaimInspector.if_not_none, hv]⟩
  | if_is_type t =>
      by_cases hv : isinstance c.value t = true
      · exact ⟨Inspector.insp c,
          by simp [ClaimInspector.applyMethod, ClaimInspector.if_is_type, hv]⟩
      · exact ⟨Inspector.noop,
          by simp [ClaimInspector.applyMethod, ClaimInspector.if_is_type, hv]⟩

/-- A one-call chain is exactly one claim-vocabulary call. -/
theorem runChain_single (i : Inspector) (c : ChainCall) (a : Auditor) :
    i.runChain [c] a = i.applyMethod c.method c.msg c.frame a := by
  unfold Inspector.runChain
  rcases h : i.applyMethod c.method c.msg c.frame a with ⟨a2, r⟩
  cases r
  · rfl
  · rfl

/-- Evaluating a step is one claim call on the inspector its `claim(...)`
call builds. -/
theorem runStep_eq (s : Step) (a : Auditor) :
    runStep s a =
      (stepInspector s).applyMethod s.call.method s.call.msg s.call.frame a := by
  unfold runStep
  rw [runChain_single]
  rfl

/-- `Auditor.claim` binds the requested severity. -/
theorem stepInspector_error_level (s : Step) :
    (stepInspector s).error_level = s.severity := by
  unfold stepInspector Auditor.claim ClaimInspector.init
  cases s.object_name <;> rfl

/-- `Auditor.claim` binds the requested value. -/
theorem stepInspector_value (s : Step) : (stepInspector s).value = s.value := by
  unfold stepInspector Auditor.claim ClaimInspector.init
  cases s.object_name <;> rfl

/-- A failing step at a non-`BLOCKER` severity appends exactly its record and
continues. -/
theorem runStep_fail (s : Step) (a : Auditor) (hfail : stepFails s = true)
    (hnb : s.severity ≠ Severity.BLOCKER) :
    runStep s a = (a.add_report_item s.severity (stepMsg s) s.call.frame,
                   Except.ok (Inspector.insp (stepInspector s))) := by
  rw [runStep_eq]
  have h1 := stepInspector_error_level s
  have h2 := stepInspector_value s
  have happ := applyMethod_fail (stepInspector s) s.call.method s.call.msg
    s.call.frame a (by rw [h2]; exact hfail) (by rw [h1]; exact hnb)
  rw [happ, h1]
  rfl

/-- A failing step at `BLOCKER` severity whose call does not itself catch the
fatal signal appends exactly its record and raises the fatal signal. -/
theorem runStep_fail_blocker (s : Step) (a : Auditor)
    (hfail : stepFails s = true) (hb : s.severity = Severity.BLOCKER)
    (hnsw : methodSwallowsBlock s.call.method = false) :
    runStep s a = (a.add_report_item s.severity (stepMsg s) s.call.frame,
                   Except.error ExnType.blockingDeficiencyError) := by
  rw [runStep_eq]
  have h1 := stepInspector_error_level s
  have h2 := stepInspector_value s
  have happ := applyMethod_fail_blocker (stepInspector s) s.call.method s.call.msg
    s.call.frame a (by rw [h2]; exact hfail) (by rw [h1]; exact hb) hnsw
  rw [happ, h1]
  rfl

/-- A step that neither fails nor host-errors leaves the auditor untouched. -/
theorem runStep_pass (s : Step) (a : Auditor) (hfail : stepFails s = false)
    (herr : stepHostErr s = false) :
    ∃ i, runStep s a = (a, Except.ok i) := by
  rw [runStep_eq]
  have h2 := stepInspector_value s
  exact applyMethod_pass (stepInspector s) s.call.method s.call.msg s.call.frame a
    (by rw [h2]; exact hfail) (by rw [h2]; exact herr)

/-- Sequencing of audit statements: a normally completed part is followed by
the rest; an exception in the first part skips the rest. -/
theorem runSteps_append (xs ys : List Step) (a : Auditor) :
    runSteps (xs ++ ys) a =
      (match runSteps xs a with
       | (a2, Except.ok _) => runSteps ys a2
       | (a2, Except.error e) => (a2, Except.error e)) := by
  induction xs generalizing a with
  | nil => simp [runSteps]
  | cons s rest ih =>
      rw [List.cons_append]
      simp only [runSteps]
      rcases h : runStep s a with ⟨a2, r⟩
      cases r
      · rfl
      · exact ih a2

/-- A run whose failing steps are all below `BLOCKER` and which raises no
host-level error completes normally, touches no flag, and appends exactly the
records of the failing steps in evaluation order. -/
theorem runSteps_clean (body : List Step) (a : Auditor)
    (herr : ∀ s ∈ body, stepHostErr s = false)
    (hsev : ∀ s ∈ body, stepFails s = true → s.severity ≠ Severity.BLOCKER) :
    runSteps body a =
      ({ a with report := AuditReport.mk (a.report.report_items ++
          (body.filter (fun s => stepFails s)).map stepRecord) },
       Except.ok ()) := by
  induction body generalizing a with
  | nil => simp [runSteps]
  | cons s rest ih =>
      have herr_s : stepHostErr s = false := herr s (List.mem_cons_self s rest)
      have herr' : ∀ u ∈ rest, stepHostErr u = false :=
        fun u hu => herr u (List.mem_cons_of_mem s hu)
      have hsev' : ∀ u ∈ rest, stepFails u = true → u.severity ≠ Severity.BLOCKER :=
        fun u hu => hsev u (List.mem_cons_of_mem s hu)
      by_cases hf : stepFails s = true
      · have hnb := hsev s (List.mem_cons_self s rest) hf
        simp only [runSteps]
        rw [runStep_fail s a hf hnb]
        dsimp only
        rw [ih (a.add_report_item s.severity (stepMsg s) s.call.frame) herr' hsev']
        simp [Auditor.add_report_item, AuditReport.append, hf, stepRecord,
              List.filter_cons, List.append_assoc]
      · have hf' : stepFails s = false := by
          rcases Bool.dichotomy (stepFails s) with h | h
          · exact h
          · exact absurd h hf
        obtain ⟨i, hi⟩ := runStep_pass s a hf' herr_s
        simp only [runSteps]
        rw [hi]
        dsimp only
        rw [ih a herr' hsev']
        simp [hf', List.filter_cons]

/-- `isinstance(e, BlockingDeficiencyError)` holds exactly for the fatal
signal itself: no other modelled class subclasses it. -/
theorem isInstanceOf_blocking (e : ExnType) :
    e.isInstanceOf ExnType.blockingDeficiencyError =
      (e == ExnType.blockingDeficiencyError) := by
  cases e <;> rfl

/-! The claims. -/

/-- A single failing WARNING claim, used to show `run_audit` re-executes. -/
def c1_step : Step :=
  ⟨PyVal.vint 0, Severity.WARNING, Option.some "x", Option.none,
   ⟨InspMethod.is_truthy, Option.none, Option.none⟩⟩

/-- Claim C1 (code bug): `run_audit()` / `get_report()` are claimed
idempotent — `audit()` executing at most once per instance with the report
length stable over repeated calls — but the source never assigns
`qa_run_flag = True`, so a second `run_audit()` call re-invokes `audit()`:
with an audit body of one failing WARNING claim, the first call leaves one
record and the second call appends a duplicate (length 2), the run-once flag
still being `false`. -/
theorem c1_run_audit_reruns_audit :
    ((Auditor.init.run_audit [c1_step]).1.report.len = 1) ∧
    (((Auditor.init.run_audit [c1_step]).1.run_audit [c1_step]).1.report.len = 2) ∧
    ((Auditor.init.run_audit [c1_step]).1.qa_run_flag = false) :=
  ⟨rfl, rfl, rfl⟩

/-- A `BLOCKER` `raises(Exception)` claim whose callable returns normally:
the check records the deficiency and then catches its own fatal signal. -/
def c2_step1 : Step :=
  ⟨PyVal.vcallable Option.none, Severity.BLOCKER, Option.some "f", Option.none,
   ⟨InspMethod.raises ExnType.exception, Option.none, Option.none⟩⟩

/-- A later failing ERROR claim, to observe that the run was not aborted. -/
def c2_step2 : Step :=
  ⟨PyVal.vint 0, Severity.ERROR, Option.some "x", Option.none,
   ⟨InspMethod.is_truthy, Option.none, Option.none⟩⟩

/-- Claim C2, counterexample: a claim that fails at `BLOCKER` severity need
not abort the run.  When the failing check is `raises(Exception)` (the call
returned normally), `_report_deficiency` raises the fatal signal inside the
check's own `try`, and `except Exception` catches it: the following claim is
still evaluated and appends a second record, `is_blocked` stays `false`, and
the run returns normally. -/
theorem c2_blocker_swallowed_cex :
    (stepFails c2_step1 = true) ∧ (c2_step1.severity = Severity.BLOCKER) ∧
    ((Auditor.init.run_audit [c2_step1, c2_step2]).1.report.len = 2) ∧
    ((Auditor.init.run_audit [c2_step1, c2_step2]).1.is_blocked = false) ∧
    ((Auditor.init.run_audit [c2_step1, c2_step2]).2 = Except.ok ()) :=
  ⟨rfl, rfl, rfl, rfl, rfl⟩

/-- Claim C2 (amended): for every audit run, when a claim fails at severity
`BLOCKER` and the failing check is not a `raises(E)` check whose expected
class `E` matches `BlockingDeficiencyError` (that check swallows the fatal
signal itself), exactly one record for that failure is appended, no claim
after it in the same `audit()` invocation is evaluated, no further records
are appended in that run, and `is_blocked` becomes true. -/
theorem c2_blocker_aborts (pre post : List Step) (b : Step) (a1 : Auditor)
    (hpre : runSteps pre Auditor.init = (a1, Except.ok ()))
    (hsev : b.severity = Severity.BLOCKER) (hfail : stepFails b = true)
    (hnsw : methodSwallowsBlock b.call.method = false) :
    (Auditor.init.run_audit (pre ++ b :: post) =
      ({ a1 with
          report := AuditReport.mk (a1.report.report_items ++ [stepRecord b]),
          is_blocked := true }, Except.ok ())) ∧
    Auditor.init.run_audit (pre ++ b :: post) = Auditor.init.run_audit (pre ++ [b]) := by
  have hb : runStep b a1 =
      (a1.add_report_item b.severity (stepMsg b) b.call.frame,
       Except.error ExnType.blockingDeficiencyError) :=
    runStep_fail_blocker b a1 hfail hsev hnsw
  have hseq : ∀ post2 : List Step,
      runSteps (pre ++ b :: post2) Auditor.init =
        (a1.add_report_item b.severity (stepMsg b) b.call.frame,
         Except.error ExnType.blockingDeficiencyError) := by
    intro post2
    rw [runSteps_append, hpre]
    dsimp only
    simp only [runSteps]
    rw [hb]
  have hrun : ∀ post2 : List Step,
      Auditor.init.run_audit (pre ++ b :: post2) =
        ({ a1.add_report_item b.severity (stepMsg b) b.call.frame with
            is_blocked := true }, Except.ok ()) := by
    intro post2
    unfold Auditor.run_audit
    rw [hseq post2]
    rfl
  constructor
  · rw [hrun post]
    rfl
  · rw [hrun post, hrun []]

/-- A single failing `BLOCKER` `is_truthy` claim. -/
def c2w_step : Step :=
  ⟨PyVal.vint 0, Severity.BLOCKER, Option.some "x", Option.none,
   ⟨InspMethod.is_truthy, Option.none, Option.none⟩⟩

/-- Witness for `c2_blocker_aborts` at a concrete blocked run. -/
theorem c2_blocker_aborts_witness :
    (Auditor.init.run_audit [c2w_step] =
      ({ Auditor.init with
          report := AuditReport.mk (Auditor.init.report.report_items ++ [stepRecord c2w_step]),
          is_blocked := true }, Except.ok ())) ∧
    Auditor.init.run_audit [c2w_step] = Auditor.init.run_audit [c2w_step] :=
  c2_blocker_aborts [] [] c2w_step Auditor.init rfl rfl rfl rfl

/-- A failing CRITICAL claim whose record should flip the verdict. -/
def c3_step : Step :=
  ⟨PyVal.vnone, Severity.CRITICAL, Option.some "x", Option.none,
   ⟨InspMethod.is_not_none, Option.none, Option.none⟩⟩

/-- Claim C3 (code bug): `passed(maxLevel)` is claimed to ensure the audit
has run so that the verdict reflects the caller's claim sequence, but the
source body of `passed` never calls `run_audit`: on a fresh auditor whose
audit body is one failing CRITICAL claim, `passed(WARNING)` scans the
never-populated report and returns `true`, while the verdict after actually
running the audit is `false`. -/
theorem c3_passed_skips_run :
    (Auditor.init.passed Severity.WARNING = true) ∧
    (((Auditor.init.run_audit [c3_step]).1).passed Severity.WARNING = false) :=
  ⟨rfl, rfl⟩

/-- An inspector over a callable that raises `ValueError` when invoked. -/
def c4_insp : ClaimInspector :=
  ClaimInspector.mk Severity.ERROR
    (PyVal.vcallable (Option.some ExnType.valueError)) "f"

/-- Claim C4, counterexample: `raises(TypeError)` on a value whose invocation
raises `ValueError` (a non-matching error) does not record a deficiency and
does not return the inspector — the error propagates out of the check with
the report untouched. -/
theorem c4_nonmatching_raises_cex :
    c4_insp.raises ExnType.typeError Option.none Option.none Auditor.init =
      (Auditor.init, Except.error ExnType.valueError) := rfl

/-- Claim C4 (amended): for every value bound by a non-`BLOCKER` claim,
`raises(ErrorKind)` records a deficiency exactly when invoking the value
returns normally (and then returns the inspector); an error matching
`ErrorKind` is swallowed with no deficiency and the inspector is returned; a
non-matching error propagates uncaught with no deficiency recorded and
without returning the inspector. -/
theorem c4_raises_characterization (c : ClaimInspector) (t : ExnType)
    (msg : Option String) (fr : Option FrameSummary) (a : Auditor)
    (hnb : c.error_level ≠ Severity.BLOCKER) :
    c.raises t msg fr a =
      (match callValue c.value with
       | Except.ok _ =>
           (a.add_report_item c.error_level
             (pyOr msg (defaultMsg (InspMethod.raises t) c.object_name)) fr,
            Except.ok (Inspector.insp c))
       | Except.error e =>
           if e.isInstanceOf t then (a, Except.ok (Inspector.insp c))
           else (a, Except.error e)) := by
  rcases hc : callValue c.value with e | u
  · simp [ClaimInspector.raises, hc]
  · simp [ClaimInspector.raises, hc, ClaimInspector.report_deficiency, hnb]

/-- An inspector over a callable that returns normally when invoked. -/
def c4w_insp : ClaimInspector :=
  ClaimInspector.mk Severity.ERROR (PyVal.vcallable Option.none) "f"

/-- Witness for `c4_raises_characterization`: the no-raise case records. -/
theorem c4_raises_characterization_witness :
    c4w_insp.raises ExnType.valueError Option.none Option.none Auditor.init =
      (Auditor.init.add_report_item Severity.ERROR
        (pyOr Option.none (defaultMsg (InspMethod.raises ExnType.valueError) "f"))
        Option.none,
       Except.ok (Inspector.insp c4w_insp)) :=
  c4_raises_characterization c4w_insp ExnType.valueError Option.none Option.none
    Auditor.init (by decide)

/-- Claim C5: `run_audit()` catches exactly the fatal signal raised from the
`audit()` invocation, converting it into `is_blocked = true` and returning
normally; an exception of any other type raised during `audit()` propagates
out of `run_audit()` uncaught, with the state mutated so far. -/
theorem c5_run_audit_catches_only_fatal (a : Auditor) (body : List Step)
    (a2 : Auditor) (e : ExnType) (hflag : a.qa_run_flag = false)
    (hrun : runSteps body a = (a2, Except.error e)) :
    a.run_audit body =
      (if e = ExnType.blockingDeficiencyError
       then ({ a2 with is_blocked := true }, Except.ok ())
       else (a2, Except.error e)) := by
  by_cases he : e = ExnType.blockingDeficiencyError
  · subst he
    simp [Auditor.run_audit, hflag, hrun, ExnType.isInstanceOf]
  · simp [Auditor.run_audit, hflag, hrun, isInstanceOf_blocking, he]

/-- A single failing `BLOCKER` `is_not_none` claim. -/
def c5_step : Step :=
  ⟨PyVal.vnone, Severity.BLOCKER, Option.some "x", Option.none,
   ⟨InspMethod.is_not_none, Option.none, Option.none⟩⟩

/-- Witness for `c5_run_audit_catches_only_fatal` at a concrete blocked
run. -/
theorem c5_run_audit_catches_only_fatal_witness :
    Auditor.init.run_audit [c5_step] =
      ({ Auditor.init.add_report_item Severity.BLOCKER (stepMsg c5_step)
          Option.none with is_blocked := true }, Except.ok ()) :=
  c5_run_audit_catches_only_fatal Auditor.init [c5_step]
    (Auditor.init.add_report_item Severity.BLOCKER (stepMsg c5_step) Option.none)
    ExnType.blockingDeficiencyError rfl rfl

/-- The loop of `passed` accepts a report exactly when every item's severity
rank is at most the threshold's rank. -/
theorem passedLoop_iff (items : List (Severity × String × String))
    (lvl : Severity) :
    passedLoop items lvl = true ↔ ∀ m ∈ items, m.1.rank ≤ lvl.rank := by
  induction items with
  | nil => simp [passedLoop]
  | cons m rest ih =>
      simp only [passedLoop]
      by_cases h : lvl.rank < m.1.rank
      · rw [if_pos h]
        constructor
        · intro hc
          exact absurd hc Bool.false_ne_true
        · intro hall
          have := hall m (List.mem_cons_self m rest)
          omega
      · simp only [if_neg h, ih, List.forall_mem_cons]
        constructor
        · intro hrest
          exact ⟨by omega, hrest⟩
        · intro hx
          exact hx.2

/-- Claim C6: for every report contents and severity level, `passed(level)`
returns true iff every record's severity rank is at most `level`'s rank — a
record at exactly `level` counts as passing, and an empty report passes
vacuously at any level. -/
theorem c6_passed_iff_all_ranks_le (a : Auditor) (lvl : Severity) :
    a.passed lvl = true ↔
      ∀ m ∈ a.report.report_items, m.1.rank ≤ lvl.rank := by
  unfold Auditor.passed
  exact passedLoop_iff a.report.report_items lvl

/-- Witness for `c6_passed_iff_all_ranks_le` on the empty report. -/
theorem c6_passed_iff_all_ranks_le_witness :
    Auditor.init.passed Severity.WARNING = true :=
  (c6_passed_iff_all_ranks_le Auditor.init Severity.WARNING).mpr
    (by simp [Auditor.init, AuditReport.init])

/-- A `raises(TypeError)` claim whose callable raises `ValueError`: the
non-matching error propagates out of the audit run. -/
def c7_step1 : Step :=
  ⟨PyVal.vcallable (Option.some ExnType.valueError), Severity.ERROR,
   Option.some "f", Option.none,
   ⟨InspMethod.raises ExnType.typeError, Option.none, Option.none⟩⟩

/-- A later failing ERROR claim which the host error prevents from running. -/
def c7_step2 : Step :=
  ⟨PyVal.vint 0, Severity.ERROR, Option.some "x", Option.none,
   ⟨InspMethod.is_truthy, Option.none, Option.none⟩⟩

/-- Claim C7, counterexample: a run in which every recorded deficiency is
(vacuously) below `BLOCKER` need not evaluate every claim to completion: a
claim whose evaluation raises a host-level error (here `raises(TypeError)`
over a callable that raises `ValueError`) aborts the run uncaught with an
empty report, and the following claim is never evaluated. -/
theorem c7_host_error_cex :
    ((Auditor.init.run_audit [c7_step1, c7_step2]).2 =
      Except.error ExnType.valueError) ∧
    ((Auditor.init.run_audit [c7_step1, c7_step2]).1.report.len = 0) ∧
    (Auditor.init.run_audit [c7_step1, c7_step2] =
      Auditor.init.run_audit [c7_step1]) ∧
    ((Auditor.init.run_audit [c7_step1, c7_step2]).1.is_blocked = false) :=
  ⟨rfl, rfl, rfl, rfl⟩

/-- Claim C7 (amended): for every audit run in which no claim's evaluation
raises a host-level error and every failing claim has severity strictly
below `BLOCKER`, the run evaluates every claim to completion and returns
normally, `is_blocked` remains false, and the final report contains exactly
one record per failed claim, in evaluation order. -/
theorem c7_clean_run_completes (body : List Step)
    (herr : ∀ s ∈ body, stepHostErr s = false)
    (hsev : ∀ s ∈ body, stepFails s = true →
      s.severity.rank < Severity.BLOCKER.rank) :
    (Auditor.init.run_audit body =
      ({ Auditor.init with report := AuditReport.mk ((body.filter (fun s => stepFails s)).map stepRecord) },
       Except.ok ())) ∧
    (Auditor.init.run_audit body).1.is_blocked = false := by
  have hsev' : ∀ s ∈ body, stepFails s = true →
      s.severity ≠ Severity.BLOCKER := by
    intro s hs hf heq
    have h50 := hsev s hs hf
    rw [heq] at h50
    exact lt_irrefl _ h50
  have hclean := runSteps_clean body Auditor.init herr hsev'
  have hrun : Auditor.init.run_audit body =
      ({ Auditor.init with report := AuditReport.mk ((body.filter (fun s => stepFails s)).map stepRecord) },
       Except.ok ()) := by
    unfold Auditor.run_audit
    rw [hclean]
    rfl
  exact ⟨hrun, by rw [hrun]; rfl⟩

/-- A single failing WARNING claim. -/
def c7w_step : Step :=
  ⟨PyVal.vint 0, Severity.WARNING, Option.some "x", Option.none,
   ⟨InspMethod.is_truthy, Option.none, Option.none⟩⟩

/-- Witness for `c7_clean_run_completes` at a one-claim run. -/
theorem c7_clean_run_completes_witness :
    (Auditor.init.run_audit [c7w_step] =
      ({ Auditor.init with report := AuditReport.mk ((([c7w_step]).filter (fun s => stepFails s)).map stepRecord) },
       Except.ok ())) ∧
    (Auditor.init.run_audit [c7w_step]).1.is_blocked = false :=
  c7_clean_run_completes [c7w_step] (by decide) (by decide)

/-- Claim C8: `if_not_none()` on a `None` value and `if_is_type(T)` on a
value not an instance of `T` each return the `NoOpInspector` without
recording anything, every claim chain subsequently applied to that result
leaves the auditor (hence the report) unchanged and raises nothing, and on a
matching value each combinator returns the same inspector unchanged. -/
theorem c8_skip_combinators (c : ClaimInspector) (t : PyType) (a : Auditor)
    (calls : List ChainCall) :
    (c.value.isNone = true → c.if_not_none a = (a, Except.ok Inspector.noop)) ∧
    (isinstance c.value t = false →
      c.if_is_type t a = (a, Except.ok Inspector.noop)) ∧
    (Inspector.noop.runChain calls a = (a, Except.ok Inspector.noop)) ∧
    (c.value.isNone = false →
      c.if_not_none a = (a, Except.ok (Inspector.insp c))) ∧
    (isinstance c.value t = true →
      c.if_is_type t a = (a, Except.ok (Inspector.insp c))) := by
  refine ⟨?_, ?_, ?_, ?_, ?_⟩
  · intro h; simp [ClaimInspector.if_not_none, h]
  · intro h; simp [ClaimInspector.if_is_type, h]
  · induction calls with
    | nil => rfl
    | cons cc rest ih =>
        simp only [Inspector.runChain, Inspector.applyMethod]
        exact ih
  · intro h; simp [ClaimInspector.if_not_none, h]
  · intro h; simp [ClaimInspector.if_is_type, h]

/-- An inspector bound to `None`. -/
def c8w_insp : ClaimInspector := ClaimInspector.mk Severity.ERROR PyVal.vnone "x"

/-- An inspector bound to the integer 3. -/
def c8w_insp2 : ClaimInspector :=
  ClaimInspector.mk Severity.ERROR (PyVal.vint 3) "y"

/-- Witness for `c8_skip_combinators` at concrete values. -/
theorem c8_skip_combinators_witness :
    (c8w_insp.if_not_none Auditor.init = (Auditor.init, Except.ok Inspector.noop)) ∧
    (c8w_insp.if_is_type PyType.intType Auditor.init =
      (Auditor.init, Except.ok Inspector.noop)) ∧
    (Inspector.noop.runChain [⟨InspMethod.is_truthy, Option.none, Option.none⟩]
      Auditor.init = (Auditor.init, Except.ok Inspector.noop)) ∧
    (c8w_insp2.if_not_none Auditor.init =
      (Auditor.init, Except.ok (Inspector.insp c8w_insp2))) ∧
    (c8w_insp2.if_is_type PyType.intType Auditor.init =
      (Auditor.init, Except.ok (Inspector.insp c8w_insp2))) := by
  have h1 := c8_skip_combinators c8w_insp PyType.intType Auditor.init
    [⟨InspMethod.is_truthy, Option.none, Option.none⟩]
  have h2 := c8_skip_combinators c8w_insp2 PyType.intType Auditor.init
    [⟨InspMethod.is_truthy, Option.none, Option.none⟩]
  exact ⟨h1.1 rfl, h1.2.1 rfl, h1.2.2.1, h2.2.2.2.1 rfl, h2.2.2.2.2 rfl⟩

/-- Append a list of `(severity, message, source)` triples to a report in
order, through `AuditReport.append`. -/
def appendAll (r : AuditReport)
    (items : List (Severity × String × String)) : AuditReport :=
  items.foldl (fun acc i => acc.append i.1 i.2.1 i.2.2) r

/-- `appendAll` extends the underlying item list. -/
theorem appendAll_items (r : AuditReport)
    (items : List (Severity × String × String)) :
    (appendAll r items).report_items = r.report_items ++ items := by
  induction items generalizing r with
  | nil => simp [appendAll]
  | cons i rest ih =>
      have : appendAll r (i :: rest) = appendAll (r.append i.1 i.2.1 i.2.2) rest := rfl
      rw [this, ih]
      simp [AuditReport.append]

/-- Claim C9: appending N `(severity, message, source)` triples in order to a
fresh report and then iterating yields exactly those N records in append
order with unchanged fields; the length equals N, and indexed access at `i`
yields the i-th appended record. -/
theorem c9_report_round_trip (items : List (Severity × String × String)) :
    ((appendAll AuditReport.init items).iter = items) ∧
    ((appendAll AuditReport.init items).len = items.length) ∧
    (∀ k, (appendAll AuditReport.init items).getitem k = items.get? k) := by
  have h : (appendAll AuditReport.init items).report_items = items := by
    rw [appendAll_items]
    simp [AuditReport.init]
  refine ⟨?_, ?_, ?_⟩
  · simp [AuditReport.iter, h]
  · simp [AuditReport.len, h]
  · intro k
    simp [AuditReport.getitem, h]

/-- Claim C10, counterexample: attribute access on the `NoOpInspector` does
not return the sentinel for *every* name.  Python invokes `__getattr__` only
when normal lookup fails, so the class-defined name `__init__` resolves to a
bound method, not the sentinel, and invoking it with a positional argument
raises `TypeError` — the chain neither returns the sentinel nor silently
succeeds. -/
theorem c10_class_attr_cex :
    (NoOpInspector.mk.getattr "__init__" =
      NoOpAttrVal.boundInit NoOpInspector.mk) ∧
    (NoOpInspector.mk.getattr "__init__" ≠
      NoOpAttrVal.sentinelSelf NoOpInspector.mk) ∧
    (NoOpInspector.mk.runDynChain [⟨"__init__", [PyVal.vint 0], []⟩]
      Auditor.init =
      (Auditor.init, NoOpCallOutcome.raised ExnType.typeError)) :=
  ⟨rfl, by decide, rfl⟩

/-- A name for which normal lookup fails is answered by `__getattr__` with
the sentinel. -/
theorem getattr_fallthrough (n : NoOpInspector) (item : String)
    (h : noopNormalLookup item = false) :
    n.getattr item = NoOpAttrVal.sentinelSelf n := by
  simp only [noopNormalLookup, Bool.or_eq_false_iff] at h
  obtain ⟨⟨⟨h1, h2⟩, h3⟩, h4⟩ := h
  have h4' : item ∉ objectAttrNames := by simpa using h4
  simp [NoOpInspector.getattr, h1, h2, h3, h4']

/-- Claim C10 (amended): on a `NoOpInspector`, every attribute access whose
name is not found by normal lookup (any name outside the class's own
`__init__`/`__getattr__`/`__call__` and the attributes inherited from
`object` — in particular every misspelled or nonexistent method name) goes
through `__getattr__`, returns the same sentinel and never raises; invoking
the sentinel with any arguments returns the sentinel; consequently an
arbitrarily long chain of such method calls silently succeeds and leaves any
auditor's report untouched.  (A class-defined name instead resolves to a
bound method or host object by normal lookup, and calling it can raise.) -/
theorem c10_noop_absorbs (n : NoOpInspector) :
    (∀ item, noopNormalLookup item = false →
      n.getattr item = NoOpAttrVal.sentinelSelf n) ∧
    (∀ args kwargs,
      (NoOpAttrVal.sentinelSelf n).invoke args kwargs =
        NoOpCallOutcome.sentinel n) ∧
    (∀ calls a, (∀ c ∈ calls, noopNormalLookup c.attr = false) →
      n.runDynChain calls a = (a, NoOpCallOutcome.sentinel n)) := by
  refine ⟨getattr_fallthrough n, fun args kwargs => rfl, ?_⟩
  intro calls
  induction calls with
  | nil => intro a _; rfl
  | cons cc rest ih =>
      intro a h
      have hc := getattr_fallthrough n cc.attr (h cc (List.mem_cons_self cc rest))
      simp only [NoOpInspector.runDynChain, hc, NoOpAttrVal.invoke,
        NoOpInspector.call]
      exact ih a (fun c hm => h c (List.mem_cons_of_mem cc hm))

/-- Witness for `c10_noop_absorbs`: a claim-vocabulary name and a misspelled
name both fall through to the sentinel, and a chain of them is inert. -/
theorem c10_noop_absorbs_witness :
    (NoOpInspector.mk.getattr "is_truthy" =
      NoOpAttrVal.sentinelSelf NoOpInspector.mk) ∧
    ((NoOpAttrVal.sentinelSelf NoOpInspector.mk).invoke [] [] =
      NoOpCallOutcome.sentinel NoOpInspector.mk) ∧
    (NoOpInspector.mk.runDynChain
      [⟨"no_such_method", [PyVal.vint 1], []⟩, ⟨"is_truthy", [], []⟩]
      Auditor.init = (Auditor.init, NoOpCallOutcome.sentinel NoOpInspector.mk)) := by
  have h := c10_noop_absorbs NoOpInspector.mk
  exact ⟨h.1 "is_truthy" (by decide), h.2.1 [] [],
    h.2.2 [⟨"no_such_method", [PyVal.vint 1], []⟩, ⟨"is_truthy", [], []⟩]
      Auditor.init (by decide)⟩

end Qassure
